import Mathlib

/-!
# Homework bulletin board (`main.go`): a shallow embedding

Strings are Unicode text; request bodies and uploaded files are bytes.  The
standard-library calls of `main.go` (`time.Parse`, `Time.Format`,
`encoding/json`, `os`, `path/filepath`, `mime/multipart`, `net/http`) are
modelled next to the functions of `main.go` that use them.
-/

namespace Backend

/-! ## `time`: parsing with the layout `time.RFC3339` and formatting -/

/-- The `isDigit` test of `time/format.go`. -/
def isDigit (c : Char) : Bool := decide (48 ≤ c.toNat) && decide (c.toNat ≤ 57)

/-- Value of a decimal digit character. -/
def digitVal (c : Char) : Nat := c.toNat - 48

/-- The character of a decimal digit. -/
def digitChar (n : Nat) : Char := Char.ofNat (48 + n)

/-- The `getnum` helper of `time/format.go`: one or two digits, exactly two
when `fixed`. -/
def getnum (s : List Char) (fixed : Bool) : Option (Nat × List Char) :=
  match s with
  | [] => none
  | [c0] =>
    if isDigit c0 then (if fixed then none else some (digitVal c0, [])) else none
  | c0 :: c1 :: rest =>
    if isDigit c0 then
      if isDigit c1 then some (digitVal c0 * 10 + digitVal c1, rest)
      else if fixed then none else some (digitVal c0, c1 :: rest)
    else none

/-- The four-digit year chunk (`stdLongYear`): four characters, all digits. -/
def getYear (s : List Char) : Option (Nat × List Char) :=
  match s with
  | a :: b :: c :: d :: rest =>
    if isDigit a && isDigit b && isDigit c && isDigit d then
      some (digitVal a * 1000 + digitVal b * 100 + digitVal c * 10 + digitVal d, rest)
    else none
  | _ => none

/-- A literal character of the layout. -/
def expect (c : Char) (s : List Char) : Option (List Char) :=
  match s with
  | x :: rest => if x = c then some rest else none
  | [] => none

/-- The function `isLeap` of package `time`. -/
def isLeap (year : Nat) : Bool :=
  year % 4 == 0 && (year % 100 != 0 || year % 400 == 0)

/-- The function `daysIn` of package `time`. -/
def daysIn (month year : Nat) : Nat :=
  if month = 2 then (if isLeap year then 29 else 28)
  else if month = 4 ∨ month = 6 ∨ month = 9 ∨ month = 11 then 30
  else 31

/-- Value of the digits of a fractional second, as `parseNanoseconds` reads
them: at most nine digits count, scaled to nanoseconds. -/
def nanosOf (ds : List Char) : Nat :=
  let d9 := ds.take 9
  (d9.foldl (fun acc c => acc * 10 + digitVal c) 0) * 10 ^ (9 - d9.length)

/-- The fractional second that the layout does not mention but `Parse`
accepts after the seconds: a period or comma followed by digits. -/
def skipFraction (s : List Char) : Nat × List Char :=
  match s with
  | p :: d :: rest =>
    if (p = '.' ∨ p = ',') ∧ isDigit d = true then
      (nanosOf ((d :: rest).takeWhile isDigit), (d :: rest).dropWhile isDigit)
    else (0, s)
  | _ => (0, s)

/-- The zone chunk `Z07:00`: a `Z`, or sign, two digits, colon, two digits,
with the range test of `Parse` (hours up to 24, minutes up to 60).  The
result is the offset in seconds, `none` for UTC. -/
def getZone (s : List Char) : Option (Option Int × List Char) :=
  match s with
  | [] => none
  | sg :: more =>
    if sg = 'Z' then some (none, more)
    else
      match more with
      | h1 :: h2 :: col :: m1 :: m2 :: rest =>
        if col = ':' then
          match getnum [h1, h2] true, getnum [m1, m2] true with
          | some (hr, _), some (mm, _) =>
            if 24 < hr ∨ 60 < mm then none
            else if sg = '+' then some (some (((hr * 60 + mm) * 60 : Nat) : Int), rest)
            else if sg = '-' then some (some (-(((hr * 60 + mm) * 60 : Nat) : Int)), rest)
            else none
          | _, _ => none
        else none
      | _ => none

/-- A `time.Time`, held as the wall-clock reading in its own location (what
`Time.Date` and `Time.Clock` return) together with the zone offset: `Parse`
builds the instant from exactly this reading and `Format` prints it back. -/
structure Time where
  year : Nat
  month : Nat
  day : Nat
  hour : Nat
  minute : Nat
  second : Nat
  nsec : Nat
  zone : Option Int
deriving DecidableEq, Repr

/-- A numeric chunk with its range test: `getnum`, then a range error when
the value is below `lo` or not below `hi`. -/
def getRanged (s : List Char) (fixed : Bool) (lo hi : Nat) : Option (Nat × List Char) :=
  match getnum s fixed with
  | none => none
  | some (n, rest) => if n < lo ∨ hi ≤ n then none else some (n, rest)

/-- The date chunks `2006-01-02`; the day is any two digits here and is
validated once parsing is complete. -/
def getDate (s : List Char) : Option ((Nat × Nat × Nat) × List Char) := do
  let (year, v) ← getYear s
  let v ← expect '-' v
  let (month, v) ← getRanged v true 1 13
  let v ← expect '-' v
  let (day, v) ← getnum v true
  some ((year, month, day), v)

/-- The clock chunks `15:04:05`, with the optional fractional second. -/
def getClock (s : List Char) : Option ((Nat × Nat × Nat × Nat) × List Char) := do
  let (hour, v) ← getRanged s false 0 24
  let v ← expect ':' v
  let (minute, v) ← getRanged v true 0 60
  let v ← expect ':' v
  let (second, v) ← getRanged v true 0 60
  let (nsec, v) := skipFraction v
  some ((hour, minute, second, nsec), v)

/-- The call `time.Parse(time.RFC3339, value)`, layout
`2006-01-02T15:04:05Z07:00`; `none` stands for any parse error. -/
def parseRFC3339 (value : List Char) : Option Time := do
  let ((year, month, day), v) ← getDate value
  let v ← expect 'T' v
  let ((hour, minute, second, nsec), v) ← getClock v
  let (zone, v) ← getZone v
  if v = [] ∧ 1 ≤ day ∧ day ≤ daysIn month year then
    some ⟨year, month, day, hour, minute, second, nsec, zone⟩
  else none

/-- The function `appendInt` of `time/format.go` for a non-negative `x`:
decimal digits, zero-padded to `width`. -/
def appendInt (x width : Nat) : List Char :=
  if width = 2 ∧ x < 100 then [digitChar (x / 10), digitChar (x % 10)]
  else if width = 4 ∧ x < 10000 then
    [digitChar (x / 1000), digitChar (x / 100 % 10), digitChar (x / 10 % 10), digitChar (x % 10)]
  else
    let ds := Nat.toDigits 10 x
    List.replicate (width - ds.length) '0' ++ ds

/-- The call `t.Format("2006-01-02 15:04")`. -/
def formatDisplay (t : Time) : List Char :=
  appendInt t.year 4 ++ '-' :: appendInt t.month 2 ++ '-' :: appendInt t.day 2 ++
    ' ' :: appendInt t.hour 2 ++ ':' :: appendInt t.minute 2

/-- The function `formatDateTime` of `main.go`. -/
def formatDateTime (isoTime : String) : String :=
  match parseRFC3339 isoTime.data with
  | none => isoTime
  | some t => String.mk (formatDisplay t)

/-- The display form `YYYY-MM-DD HH:MM`: sixteen characters, digits at the
field positions, `-` at positions 4 and 7, a space at position 10 and `:` at
position 13. -/
def isDisplayForm (s : String) : Bool :=
  match s.data with
  | [y1, y2, y3, y4, a, m1, m2, b, d1, d2, c, h1, h2, e, n1, n2] =>
    isDigit y1 && isDigit y2 && isDigit y3 && isDigit y4 && isDigit m1 && isDigit m2 &&
    isDigit d1 && isDigit d2 && isDigit h1 && isDigit h2 && isDigit n1 && isDigit n2 &&
    decide (a = '-') && decide (b = '-') && decide (c = ' ') && decide (e = ':')
  | _ => false

/-! ### Timestamps as the standard writes them -/

/-- Two decimal digits. -/
def two (n : Nat) : List Char := [digitChar (n / 10), digitChar (n % 10)]

/-- Four decimal digits. -/
def four (n : Nat) : List Char :=
  [digitChar (n / 1000), digitChar (n / 100 % 10), digitChar (n / 10 % 10), digitChar (n % 10)]

/-- Length of a month in the Gregorian calendar. -/
def monthLength (year month : Nat) : Nat :=
  match month with
  | 2 => if year % 400 = 0 ∨ (year % 4 = 0 ∧ year % 100 ≠ 0) then 29 else 28
  | 4 => 30
  | 6 => 30
  | 9 => 30
  | 11 => 30
  | _ => 31

/-- A combined date and time with time zone in the complete extended form
`YYYY-MM-DDThh:mm:ss[.fff](Z|±hh:mm)`, given by its fields.  The fraction is
a list of decimal digits written after a period (or a comma when `comma`);
the zone is `none` for `Z`, else the sign (`true` for `-`), hours and
minutes of the offset. -/
structure Stamp where
  year : Nat
  month : Nat
  day : Nat
  hour : Nat
  minute : Nat
  second : Nat
  frac : List Nat
  comma : Bool
  zone : Option (Bool × Nat × Nat)

/-- Validity of a written offset: at most 23 hours and 59 minutes. -/
def zoneValid : Option (Bool × Nat × Nat) → Bool
  | none => true
  | some (_, h, m) => decide (h ≤ 23) && decide (m ≤ 59)

/-- Validity of the fields: a calendar date of the years 0000 to 9999, a
time of day, where second 60 is the leap second, and an offset of at most
23:59. -/
def Stamp.valid (s : Stamp) : Prop :=
  s.year ≤ 9999 ∧ 1 ≤ s.month ∧ s.month ≤ 12 ∧ 1 ≤ s.day ∧ s.day ≤ monthLength s.year s.month ∧
  s.hour ≤ 23 ∧ s.minute ≤ 59 ∧ s.second ≤ 60 ∧ (∀ d ∈ s.frac, d ≤ 9) ∧ zoneValid s.zone = true

instance (s : Stamp) : Decidable s.valid :=
  inferInstanceAs (Decidable (s.year ≤ 9999 ∧ 1 ≤ s.month ∧ s.month ≤ 12 ∧ 1 ≤ s.day ∧
    s.day ≤ monthLength s.year s.month ∧ s.hour ≤ 23 ∧ s.minute ≤ 59 ∧ s.second ≤ 60 ∧
    (∀ d ∈ s.frac, d ≤ 9) ∧ zoneValid s.zone = true))

/-- The written fraction of a second. -/
def Stamp.fracText (s : Stamp) : List Char :=
  if s.frac = [] then [] else (if s.comma then ',' else '.') :: s.frac.map digitChar

/-- The written zone. -/
def Stamp.zoneText (s : Stamp) : List Char :=
  match s.zone with
  | none => ['Z']
  | some (neg, h, m) => (if neg then '-' else '+') :: (two h ++ ':' :: two m)

/-- The timestamp as written. -/
def Stamp.text (s : Stamp) : String :=
  String.mk (four s.year ++ '-' :: (two s.month ++ '-' :: (two s.day ++ 'T' :: (two s.hour ++
    ':' :: (two s.minute ++ ':' :: (two s.second ++ (s.fracText ++ s.zoneText)))))))

/-- The display string with the year, month, day, hour and minute of the
timestamp. -/
def Stamp.display (s : Stamp) : String :=
  String.mk (four s.year ++ '-' :: (two s.month ++ '-' :: (two s.day ++ ' ' :: (two s.hour ++
    ':' :: two s.minute))))

/-! ## The records of `main.go` and `encoding/json` at the level of JSON values

The text layer of `encoding/json` (scanning, escaping, indentation) is not
modelled: a JSON text is represented by the value it denotes.  Object members
keep their order and may repeat. -/

/-- A JSON value; a number is kept as its literal. -/
inductive JValue where
  | null
  | bool (b : Bool)
  | num (lit : String)
  | str (s : String)
  | arr (items : List JValue)
  | obj (members : List (String × JValue))

/-- The struct `File`, with JSON keys `name` (omitted when empty), `type`
and `url`. -/
structure File where
  Name : String
  Typ : String
  URL : String
deriving DecidableEq, Repr

/-- The struct `Homework`, with JSON keys `text`, `files` and `updated_at`.
The slice `Files` is `none` when nil. -/
structure Homework where
  Text : String
  Files : Option (List File)
  UpdatedAt : String
deriving DecidableEq, Repr

/-- The struct `HomeworkRequest`, with the same JSON keys. -/
structure HomeworkRequest where
  Text : String
  Files : Option (List File)
  UpdatedAt : String
deriving DecidableEq, Repr

/-- The zero value of `File`. -/
def File.zero : File := ⟨"", "", ""⟩

/-- The zero value of `Homework`, the value of `&Homework{}`. -/
def Homework.zero : Homework := ⟨"", none, ""⟩

/-- Encoding of a `File`: `omitempty` drops the key `name` exactly when the
field is the empty string. -/
def marshalFile (f : File) : JValue :=
  JValue.obj ((if f.Name = "" then [] else [("name", JValue.str f.Name)]) ++
    [("type", JValue.str f.Typ), ("url", JValue.str f.URL)])

/-- Encoding of a `[]File`: a nil slice is `null`. -/
def marshalFiles : Option (List File) → JValue
  | none => JValue.null
  | some fs => JValue.arr (fs.map marshalFile)

/-- Encoding of a `Homework`. -/
def marshalHomework (h : Homework) : JValue :=
  JValue.obj [("text", JValue.str h.Text), ("files", marshalFiles h.Files),
    ("updated_at", JValue.str h.UpdatedAt)]

/-- Folding of one character of an object key, as `foldName` of
`encoding/json` does it: ASCII letters to upper case, and the two non-ASCII
characters whose case orbit holds an ASCII letter (U+017F and U+212A) to that
letter.  Other characters cannot meet a field name and are kept. -/
def foldRune (c : Char) : Char :=
  if 97 ≤ c.toNat ∧ c.toNat ≤ 122 then Char.ofNat (c.toNat - 32)
  else if c.toNat = 0x17F then 'S'
  else if c.toNat = 0x212A then 'K'
  else c

/-- The folded form of a key. -/
def foldName (key : String) : List Char := key.data.map foldRune

/-- Field lookup of the decoder: the exact name first, then the folded name. -/
def findField (names : List String) (key : String) : Option String :=
  match names.find? (fun n => n = key) with
  | some n => some n
  | none => names.find? (fun n => foldName n = foldName key)

/-- Decoding into a string field: a JSON string is stored, `null` leaves the
field as it is, anything else is a type error. -/
def decodeString (cur : String) (v : JValue) : Option String :=
  match v with
  | JValue.str s => some s
  | JValue.null => some cur
  | _ => none

/-- One member of an object decoded into a `File`. -/
def decodeFileMember (f : File) (m : String × JValue) : Option File :=
  match findField ["name", "type", "url"] m.1 with
  | none => some f
  | some n =>
    if n = "name" then (decodeString f.Name m.2).map (fun s => { f with Name := s })
    else if n = "type" then (decodeString f.Typ m.2).map (fun s => { f with Typ := s })
    else (decodeString f.URL m.2).map (fun s => { f with URL := s })

/-- Decoding into a `File` that holds `cur`: members are stored in document
order, unknown keys are skipped, `null` is a no-op, a non-object is a type
error. -/
def decodeFile (cur : File) (v : JValue) : Option File :=
  match v with
  | JValue.obj ms => ms.foldlM decodeFileMember cur
  | JValue.null => some cur
  | _ => none

/-- The elements of a JSON array decoded one by one into the backing array
`mem` of a slice: element `i` is decoded into what the memory holds at index
`i`, the zero value beyond it.  The result is the new elements and the
memory left behind them. -/
def decodeArrayInto : List File → List JValue → Option (List File × List File)
  | mem, [] => some ([], mem)
  | [], x :: xs =>
    match decodeFile File.zero x with
    | none => none
    | some f => (decodeArrayInto [] xs).map (fun p => (f :: p.1, p.2))
  | m :: ms, x :: xs =>
    match decodeFile m x with
    | none => none
    | some f => (decodeArrayInto ms xs).map (fun p => (f :: p.1, p.2))

/-- A `[]File` under decoding: the slice and what its backing array holds
behind its length. -/
structure SliceState where
  elems : Option (List File)
  spare : List File

/-- Decoding into a `[]File`: `null` makes the slice nil, an empty array makes
a fresh empty slice, an array is decoded element by element into the backing
array, anything else is a type error. -/
def decodeFiles (cur : SliceState) (v : JValue) : Option SliceState :=
  match v with
  | JValue.null => some ⟨none, []⟩
  | JValue.arr [] => some ⟨some [], []⟩
  | JValue.arr items =>
    (decodeArrayInto (cur.elems.getD [] ++ cur.spare) items).map (fun p => ⟨some p.1, p.2⟩)
  | _ => none

/-- The fields of `Homework` (and of `HomeworkRequest`) under decoding. -/
structure RecordState where
  Text : String
  Files : SliceState
  UpdatedAt : String

/-- One member of an object decoded into the record. -/
def decodeRecordMember (st : RecordState) (m : String × JValue) : Option RecordState :=
  match findField ["text", "files", "updated_at"] m.1 with
  | none => some st
  | some n =>
    if n = "text" then (decodeString st.Text m.2).map (fun s => { st with Text := s })
    else if n = "files" then (decodeFiles st.Files m.2).map (fun s => { st with Files := s })
    else (decodeString st.UpdatedAt m.2).map (fun s => { st with UpdatedAt := s })

/-- Decoding of a JSON value into a zero record: an object is decoded member
by member, `null` leaves the zero value, anything else is a type error. -/
def decodeRecord (v : JValue) : Option RecordState :=
  match v with
  | JValue.obj ms => ms.foldlM decodeRecordMember ⟨"", ⟨none, []⟩, ""⟩
  | JValue.null => some ⟨"", ⟨none, []⟩, ""⟩
  | _ => none

/-- The call `Decode(&homework)` on a JSON value, `homework` being zero. -/
def unmarshalHomework (v : JValue) : Option Homework :=
  (decodeRecord v).map (fun st => ⟨st.Text, st.Files.elems, st.UpdatedAt⟩)

/-- The call `Decode(&req)` on a JSON value, `req` being zero. -/
def unmarshalRequest (v : JValue) : Option HomeworkRequest :=
  (decodeRecord v).map (fun st => ⟨st.Text, st.Files.elems, st.UpdatedAt⟩)

/-! ## Reading a JSON text

The scanner and the string decoding of `encoding/json`, on bytes.  A decoder
reads the first JSON value of its input, after white space, and leaves what
follows it unread. -/

/-- The replacement character U+FFFD, `utf8.RuneError`. -/
def runeError : Char := Char.ofNat 0xFFFD

/-- The function `utf8.DecodeRune`: the first character of a byte string and
the bytes after it; an invalid or truncated encoding yields U+FFFD and
consumes one byte. -/
def decodeRune (s : List Nat) : Char × List Nat :=
  match s with
  | [] => (runeError, [])
  | b0 :: rest =>
    if b0 < 0x80 then (Char.ofNat b0, rest)
    else if 0xC2 ≤ b0 ∧ b0 ≤ 0xDF then
      match rest with
      | b1 :: r1 =>
        if 0x80 ≤ b1 ∧ b1 ≤ 0xBF then (Char.ofNat ((b0 - 0xC0) * 64 + (b1 - 0x80)), r1)
        else (runeError, rest)
      | _ => (runeError, rest)
    else if 0xE0 ≤ b0 ∧ b0 ≤ 0xEF then
      match rest with
      | b1 :: b2 :: r2 =>
        if (if b0 = 0xE0 then 0xA0 else 0x80) ≤ b1 ∧ b1 ≤ (if b0 = 0xED then 0x9F else 0xBF) ∧
            0x80 ≤ b2 ∧ b2 ≤ 0xBF then
          (Char.ofNat ((b0 - 0xE0) * 4096 + (b1 - 0x80) * 64 + (b2 - 0x80)), r2)
        else (runeError, rest)
      | _ => (runeError, rest)
    else if 0xF0 ≤ b0 ∧ b0 ≤ 0xF4 then
      match rest with
      | b1 :: b2 :: b3 :: r3 =>
        if (if b0 = 0xF0 then 0x90 else 0x80) ≤ b1 ∧ b1 ≤ (if b0 = 0xF4 then 0x8F else 0xBF) ∧
            0x80 ≤ b2 ∧ b2 ≤ 0xBF ∧ 0x80 ≤ b3 ∧ b3 ≤ 0xBF then
          (Char.ofNat ((b0 - 0xF0) * 262144 + (b1 - 0x80) * 4096 + (b2 - 0x80) * 64 +
            (b3 - 0x80)), r3)
        else (runeError, rest)
      | _ => (runeError, rest)
    else (runeError, rest)

/-- The UTF-8 encoding of a character, `utf8.AppendRune`. -/
def encodeRune (c : Char) : List Nat :=
  let n := c.toNat
  if n < 0x80 then [n]
  else if n < 0x800 then [0xC0 + n / 64, 0x80 + n % 64]
  else if n < 0x10000 then [0xE0 + n / 4096, 0x80 + n / 64 % 64, 0x80 + n % 64]
  else [0xF0 + n / 262144, 0x80 + n / 4096 % 64, 0x80 + n / 64 % 64, 0x80 + n % 64]

/-- The bytes of a string. -/
def utf8Bytes (s : String) : List Nat := s.data.flatMap encodeRune

/-- White space of JSON: space, tab, carriage return, line feed. -/
def isSpaceByte (b : Nat) : Bool := b = 32 || b = 9 || b = 13 || b = 10

/-- Dropping leading white space. -/
def skipSpace : List Nat → List Nat
  | [] => []
  | b :: bs => if isSpaceByte b then skipSpace bs else b :: bs

/-- Value of a hexadecimal digit. -/
def hexVal (b : Nat) : Option Nat :=
  if 48 ≤ b ∧ b ≤ 57 then some (b - 48)
  else if 97 ≤ b ∧ b ≤ 102 then some (b - 87)
  else if 65 ≤ b ∧ b ≤ 70 then some (b - 55)
  else none

/-- Four hexadecimal digits, the `XXXX` of an escape `\uXXXX`. -/
def hex4 (s : List Nat) : Option (Nat × List Nat) :=
  match s with
  | a :: b :: c :: d :: rest =>
    match hexVal a, hexVal b, hexVal c, hexVal d with
    | some x, some y, some z, some w => some (((x * 16 + y) * 16 + z) * 16 + w, rest)
    | _, _, _, _ => none
  | _ => none

/-- The character of a one-letter escape. -/
def simpleEscape (b : Nat) : Option Char :=
  if b = 34 then some '"'
  else if b = 92 then some '\\'
  else if b = 47 then some '/'
  else if b = 98 then some (Char.ofNat 8)
  else if b = 102 then some (Char.ofNat 12)
  else if b = 110 then some '\n'
  else if b = 114 then some '\r'
  else if b = 116 then some '\t'
  else none

/-- A string literal after its opening quote: the decoded string and the
bytes after the closing quote.  Control bytes and unknown escapes are syntax
errors; invalid UTF-8 and unpaired surrogate escapes become U+FFFD. -/
def scanString : Nat → List Nat → List Char → Option (String × List Nat)
  | 0, _, _ => none
  | _ + 1, [], _ => none
  | fuel + 1, b :: rest, acc =>
    if b = 34 then some (String.mk acc.reverse, rest)
    else if b = 92 then
      match rest with
      | [] => none
      | e :: rest2 =>
        if e = 117 then
          match hex4 rest2 with
          | none => none
          | some (rr, rest3) =>
            if 0xD800 ≤ rr ∧ rr < 0xE000 then
              match rest3 with
              | 92 :: 117 :: rest4 =>
                match hex4 rest4 with
                | some (rr1, rest5) =>
                  if rr < 0xDC00 ∧ 0xDC00 ≤ rr1 ∧ rr1 < 0xE000 then
                    scanString fuel rest5
                      (Char.ofNat ((rr - 0xD800) * 1024 + (rr1 - 0xDC00) + 0x10000) :: acc)
                  else scanString fuel rest3 (runeError :: acc)
                | none => scanString fuel rest3 (runeError :: acc)
              | _ => scanString fuel rest3 (runeError :: acc)
            else scanString fuel rest3 (Char.ofNat rr :: acc)
        else
          match simpleEscape e with
          | none => none
          | some c => scanString fuel rest2 (c :: acc)
    else if b < 32 then none
    else if b < 128 then scanString fuel rest (Char.ofNat b :: acc)
    else scanString fuel (decodeRune (b :: rest)).2 ((decodeRune (b :: rest)).1 :: acc)

/-- Whether a byte is a decimal digit. -/
def isDigitByte (b : Nat) : Bool := decide (48 ≤ b) && decide (b ≤ 57)

/-- One or more digits. -/
def scanDigits (s : List Nat) : Option (List Nat × List Nat) :=
  match s.takeWhile isDigitByte with
  | [] => none
  | ds => some (ds, s.dropWhile isDigitByte)

/-- The exponent of a number, if one follows. -/
def scanExponent (s : List Nat) : Option (List Nat × List Nat) :=
  match s with
  | e :: rest =>
    if e = 101 ∨ e = 69 then
      match rest with
      | sg :: rest2 =>
        if sg = 43 ∨ sg = 45 then (scanDigits rest2).map (fun p => (e :: sg :: p.1, p.2))
        else (scanDigits rest).map (fun p => (e :: p.1, p.2))
      | [] => none
    else some ([], s)
  | [] => some ([], s)

/-- The fraction and exponent of a number, if they follow. -/
def scanFraction (s : List Nat) : Option (List Nat × List Nat) :=
  match s with
  | 46 :: rest =>
    match scanDigits rest with
    | none => none
    | some (ds, rest2) => (scanExponent rest2).map (fun p => (46 :: ds ++ p.1, p.2))
  | _ => scanExponent s

/-- The integer part of a number: a zero, or a non-zero digit and digits. -/
def scanInt (s : List Nat) : Option (List Nat × List Nat) :=
  match s with
  | d :: rest =>
    if d = 48 then some ([48], rest)
    else if isDigitByte d then some (d :: rest.takeWhile isDigitByte, rest.dropWhile isDigitByte)
    else none
  | [] => none

/-- A number literal: the literal and the bytes after it. -/
def scanNumber (s : List Nat) : Option (String × List Nat) :=
  let body := fun (sign : List Nat) (t : List Nat) =>
    match scanInt t with
    | none => none
    | some (i, rest) =>
      (scanFraction rest).map
        (fun p => (String.mk ((sign ++ i ++ p.1).map Char.ofNat), p.2))
  match s with
  | 45 :: rest => body [45] rest
  | _ => body [] s

/-- A literal name such as `true`. -/
def scanLiteral (name : List Nat) (v : JValue) (s : List Nat) : Option (JValue × List Nat) :=
  if name.isPrefixOf s then some (v, s.drop name.length) else none

/-- The nesting limit of the scanner. -/
def maxNestingDepth : Nat := 10000

mutual

/-- A JSON value after white space, with the bytes after it; `depth` is the
number of arrays and objects that are open. -/
def scanValue : Nat → Nat → List Nat → Option (JValue × List Nat)
  | 0, _, _ => none
  | fuel + 1, depth, s =>
    match skipSpace s with
    | [] => none
    | b :: rest =>
      if b = 123 then
        if maxNestingDepth ≤ depth then none
        else
          match skipSpace rest with
          | 125 :: rest2 => some (JValue.obj [], rest2)
          | rest2 => scanMembers fuel (depth + 1) rest2 []
      else if b = 91 then
        if maxNestingDepth ≤ depth then none
        else
          match skipSpace rest with
          | 93 :: rest2 => some (JValue.arr [], rest2)
          | rest2 => scanElements fuel (depth + 1) rest2 []
      else if b = 34 then
        (scanString (rest.length + 1) rest []).map (fun p => (JValue.str p.1, p.2))
      else if b = 116 then scanLiteral [116, 114, 117, 101] (JValue.bool true) (b :: rest)
      else if b = 102 then
        scanLiteral [102, 97, 108, 115, 101] (JValue.bool false) (b :: rest)
      else if b = 110 then scanLiteral [110, 117, 108, 108] JValue.null (b :: rest)
      else (scanNumber (b :: rest)).map (fun p => (JValue.num p.1, p.2))

/-- The elements of an array after the first has been found to exist, up to
the closing bracket. -/
def scanElements : Nat → Nat → List Nat → List JValue → Option (JValue × List Nat)
  | 0, _, _, _ => none
  | fuel + 1, depth, s, acc =>
    match scanValue fuel depth s with
    | none => none
    | some (v, rest) =>
      match skipSpace rest with
      | 44 :: rest2 => scanElements fuel depth rest2 (v :: acc)
      | 93 :: rest2 => some (JValue.arr (v :: acc).reverse, rest2)
      | _ => none

/-- The members of an object, each a quoted key, a colon and a value, up to
the closing brace. -/
def scanMembers : Nat → Nat → List Nat → List (String × JValue) → Option (JValue × List Nat)
  | 0, _, _, _ => none
  | fuel + 1, depth, s, acc =>
    match skipSpace s with
    | 34 :: rest =>
      match scanString (rest.length + 1) rest [] with
      | none => none
      | some (key, rest2) =>
        match skipSpace rest2 with
        | 58 :: rest3 =>
          match scanValue fuel depth rest3 with
          | none => none
          | some (v, rest4) =>
            match skipSpace rest4 with
            | 44 :: rest5 => scanMembers fuel depth rest5 ((key, v) :: acc)
            | 125 :: rest5 => some (JValue.obj ((key, v) :: acc).reverse, rest5)
            | _ => none
        | _ => none
    | _ => none

end

/-- The first JSON value of a byte string, as `json.Decoder` reads it: what
follows the value is not looked at. -/
def readJSON (s : List Nat) : Option JValue :=
  (scanValue (2 * s.length + 2) 0 s).map (fun p => p.1)

/-! ## Byte strings and the file system -/

/-- A byte string: `raw b` is the bytes `b`; `json v` is the text that
`json.Encoder` writes for the value `v`, whose bytes are not spelled out. -/
inductive Content where
  | json (v : JValue)
  | raw (bytes : List Nat)

/-- The JSON value that a decoder reads from a byte string. -/
def Content.value (c : Content) : Option JValue :=
  match c with
  | Content.json v => some v
  | Content.raw b => readJSON b

/-- The call `json.NewDecoder(reader).Decode(&homework)` on a byte string. -/
def decodeHomework (c : Content) : Option Homework :=
  c.value.bind unmarshalHomework

/-- The call `json.NewDecoder(reader).Decode(&req)` on a byte string. -/
def decodeRequest (c : Content) : Option HomeworkRequest :=
  c.value.bind unmarshalRequest

/-- What a path names: a regular file with its content, or a directory. -/
inductive Node where
  | file (c : Content)
  | dir

/-- The file system: what each path names, `none` when nothing exists there. -/
abbrev FS := String → Option Node

/-- Errors of this development: `notExist` is the one `os.IsNotExist`
recognises. -/
inductive Err where
  | notExist
  | fsError
  | decodeError
deriving DecidableEq, Repr

/-- The file system in which nothing exists. -/
def FS.empty : FS := fun _ => none

/-- Writing one path of the file system. -/
def FS.set (fs : FS) (path : String) (n : Node) : FS :=
  fun p => if p = path then some n else fs p

/-- The directory part of a path: `none` for a bare name, which lives in the
working directory. -/
def parentDir (path : String) : Option String :=
  let rev := path.data.reverse
  if rev.contains '/' then
    let d := (rev.dropWhile (fun c => c ≠ '/')).drop 1
    some (if d = [] then "/" else String.mk d.reverse)
  else none

/-- Whether the directory that is to hold `path` exists. -/
def parentExists (fs : FS) (path : String) : Bool :=
  match parentDir path with
  | none => true
  | some d =>
    match fs d with
    | some Node.dir => true
    | _ => false

/-- The call `os.Open(name)`; it does not change the file system. -/
def osOpen (fs : FS) (name : String) : FS × Except Err Node :=
  match fs name with
  | none => (fs, Except.error Err.notExist)
  | some n => (fs, Except.ok n)

/-- The call `os.Create(name)`: the file is created or truncated; it fails on
a directory and where the parent directory is missing. -/
def osCreate (fs : FS) (name : String) : FS × Except Err Unit :=
  match fs name with
  | some Node.dir => (fs, Except.error Err.fsError)
  | _ =>
    if parentExists fs name then (fs.set name (Node.file (Content.raw [])), Except.ok ())
    else (fs, Except.error Err.notExist)

/-- Writing the whole content of an open file. -/
def osWrite (fs : FS) (name : String) (c : Content) : FS :=
  fs.set name (Node.file c)

/-- The call `os.MkdirAll(name, os.ModePerm)` for a directory of the working
directory. -/
def osMkdirAll (fs : FS) (name : String) : FS × Except Err Unit :=
  match fs name with
  | some Node.dir => (fs, Except.ok ())
  | some (Node.file _) => (fs, Except.error Err.fsError)
  | none => (fs.set name Node.dir, Except.ok ())

/-- The function `loadHomework` of `main.go`. -/
def loadHomework (fs : FS) (filename : String) : FS × Except Err Homework :=
  match osOpen fs filename with
  | (fs1, Except.error e) =>
    if e = Err.notExist then (fs1, Except.ok Homework.zero) else (fs1, Except.error e)
  | (fs1, Except.ok Node.dir) => (fs1, Except.error Err.fsError)
  | (fs1, Except.ok (Node.file c)) =>
    match decodeHomework c with
    | none => (fs1, Except.error Err.decodeError)
    | some homework =>
      (fs1, Except.ok { homework with UpdatedAt := formatDateTime homework.UpdatedAt })

/-- The function `saveHomework` of `main.go`; the result is the error, `none`
for nil. -/
def saveHomework (fs : FS) (filename : String) (homework : Homework) : FS × Option Err :=
  match osCreate fs filename with
  | (fs1, Except.error e) => (fs1, some e)
  | (fs1, Except.ok _) => (osWrite fs1 filename (Content.json (marshalHomework homework)), none)

/-! ## `net/http`: requests, response writers and the handlers of `main.go` -/

/-- A part of a multipart message as the multipart reader yields it: the
form name and the declared file name of its `Content-Disposition` (empty when
absent), its MIME header with canonical keys, and its bytes. -/
structure Part where
  name : String
  filename : String
  header : List (String × List String)
  data : List Nat

/-- A request without a query string and without `Range` or conditional
headers: the method, `r.URL.Path`, the body, and the body as the multipart
reader sees it under the request's `Content-Type`: the parts in order, `none`
when the body is no well-formed multipart message.  The multipart view is
given with the request and is not computed from the bytes of the body. -/
structure Request where
  method : String
  path : String
  body : Content
  form : Option (List Part)

/-- What a response carries as its body. -/
inductive Body where
  | empty
  | text (s : String)
  | data (c : Content)
  | listing (dir : String)

/-- The state of an `http.ResponseWriter`: the header map, the status once
written, and the body. -/
structure ResponseWriter where
  header : List (String × String)
  status : Option Nat
  body : Body

/-- A fresh response writer. -/
def ResponseWriter.new : ResponseWriter := ⟨[], none, Body.empty⟩

/-- The status the client sees: 200 unless another one was written. -/
def ResponseWriter.code (w : ResponseWriter) : Nat := w.status.getD 200

/-- The call `w.Header().Set(key, value)`. -/
def ResponseWriter.setHeader (w : ResponseWriter) (key value : String) : ResponseWriter :=
  { w with header := w.header.filter (fun kv => kv.1 ≠ key) ++ [(key, value)] }

/-- The call `w.Header().Get(key)`. -/
def ResponseWriter.getHeader (w : ResponseWriter) (key : String) : Option String :=
  (w.header.find? (fun kv => kv.1 = key)).map (fun kv => kv.2)

/-- The call `w.WriteHeader(code)`. -/
def ResponseWriter.writeHeader (w : ResponseWriter) (code : Nat) : ResponseWriter :=
  { w with status := some code }

/-- A write of the whole body; the status becomes 200 if none was written. -/
def ResponseWriter.write (w : ResponseWriter) (b : Body) : ResponseWriter :=
  { w with status := some (w.status.getD 200), body := b }

/-- The function `http.Error`. -/
def httpError (w : ResponseWriter) (msg : String) (code : Nat) : ResponseWriter :=
  (((w.setHeader "Content-Type" "text/plain; charset=utf-8").setHeader
    "X-Content-Type-Options" "nosniff").writeHeader code).write (Body.text (msg ++ "\n"))

/-- The call `json.NewEncoder(w).Encode(v)` on a response writer. -/
def encodeTo (w : ResponseWriter) (v : JValue) : ResponseWriter :=
  w.write (Body.data (Content.json v))

/-- The function `enableCORS` of `main.go`. -/
def enableCORS (w : ResponseWriter) : ResponseWriter :=
  ((w.setHeader "Access-Control-Allow-Origin" "*").setHeader
    "Access-Control-Allow-Methods" "GET, POST, OPTIONS").setHeader
    "Access-Control-Allow-Headers" "Content-Type"

/-- Whether a response carries the three CORS headers of `enableCORS`. -/
def hasCORS (w : ResponseWriter) : Bool :=
  decide (w.getHeader "Access-Control-Allow-Origin" = some "*") &&
  decide (w.getHeader "Access-Control-Allow-Methods" = some "GET, POST, OPTIONS") &&
  decide (w.getHeader "Access-Control-Allow-Headers" = some "Content-Type")

/-- The function `getHomeworkHandler` of `main.go`. -/
def getHomeworkHandler (fs : FS) (w : ResponseWriter) (r : Request) (filename : String) :
    FS × ResponseWriter :=
  let w := enableCORS w
  if r.method = "OPTIONS" then (fs, w.writeHeader 200)
  else if r.method ≠ "GET" then (fs, httpError w "Method not allowed" 405)
  else
    match loadHomework fs filename with
    | (fs1, Except.error _) => (fs1, httpError w "Error loading homework" 500)
    | (fs1, Except.ok homework) =>
      (fs1, encodeTo (w.setHeader "Content-Type" "application/json") (marshalHomework homework))

/-- The function `postHomeworkHandler` of `main.go`. -/
def postHomeworkHandler (fs : FS) (w : ResponseWriter) (r : Request) (filename : String) :
    FS × ResponseWriter :=
  let w := enableCORS w
  if r.method = "OPTIONS" then (fs, w.writeHeader 200)
  else if r.method ≠ "POST" then (fs, httpError w "Method not allowed" 405)
  else
    match decodeRequest r.body with
    | none => (fs, httpError w "Invalid JSON" 400)
    | some req =>
      let req := { req with UpdatedAt := formatDateTime req.UpdatedAt }
      let homework : Homework := ⟨req.Text, req.Files, req.UpdatedAt⟩
      match saveHomework fs filename homework with
      | (fs1, some _) => (fs1, httpError w "Error saving homework" 500)
      | (fs1, none) =>
        (fs1, encodeTo (w.setHeader "Content-Type" "application/json")
          (JValue.obj [("status", JValue.str "success")]))

/-- The handler that `main` registers at `/api/homework/` followed by the
subject. -/
def subjectHandler (subject : String) (fs : FS) (w : ResponseWriter) (r : Request) :
    FS × ResponseWriter :=
  let filename := subject ++ ".json"
  if r.method = "GET" then getHomeworkHandler fs w r filename
  else if r.method = "POST" then postHomeworkHandler fs w r filename
  else if r.method = "OPTIONS" then (fs, (enableCORS w).writeHeader 200)
  else (fs, httpError w "Method not allowed" 405)

/-! ### Uploads -/

/-- The function `filepath.Base` (and `path.Base`) on a slash-separated
path: the last element, trailing slashes removed; `.` for the empty path and
`/` for a path of slashes only. -/
def base (path : String) : String :=
  if path = "" then "."
  else
    let stripped := (path.data.reverse.dropWhile (fun c => c = '/')).reverse
    let last := (stripped.reverse.takeWhile (fun c => c ≠ '/')).reverse
    if last = [] then "/" else String.mk last

/-- A `multipart.FileHeader`: the file name, which is the base of the
declared one, the MIME header of the part, and the content. -/
structure FileHeader where
  Filename : String
  Header : List (String × List String)
  content : List Nat

/-- The call `h.Get(key)` on a MIME header: the first value of the key, the
empty string when there is none. -/
def headerGet (h : List (String × List String)) (key : String) : String :=
  match h.find? (fun kv => kv.1 = key) with
  | some (_, v :: _) => v
  | _ => ""

/-- The memory that a MIME header is charged with: 400 bytes, and for every
key its length, 200 bytes and the lengths of its values. -/
def mimeHeaderSize (h : List (String × List String)) : Nat :=
  400 + (h.map (fun kv => kv.1.utf8ByteSize + 200 +
    (kv.2.map (fun v => v.utf8ByteSize)).sum)).sum

/-- The number of header lines of a MIME header. -/
def headerLines (h : List (String × List String)) : Nat :=
  (h.map (fun kv => kv.2.length)).sum

/-- The budgets of `ReadForm`: memory left for everything, memory left for
file content, parts left and header lines left. -/
structure Budget where
  mem : Int
  fileMem : Int
  parts : Nat
  lines : Int

/-- The loop of `multipart.Reader.ReadForm` over the parts.  Every part is
charged with its header when it is read, and with its name and 200 bytes of
overhead; a part without a name is skipped.  A part without a file name is a
plain value and is charged with its bytes.  A part with a file name is a
file: it is charged with its header again and 300 bytes, and its content
stays in memory, charged, if it fits into what is left for file content, and
goes to a temporary file otherwise, whatever its size.  The form is too large
when a budget is exhausted.  The result is the files of the form with their
form names, in order. -/
def readFormLoop : List Part → Budget → Option (List (String × FileHeader))
  | [], _ => some []
  | p :: ps, b =>
    if b.mem < mimeHeaderSize p.header ∨ b.lines < headerLines p.header then none
    else if b.parts = 0 then none
    else if p.name = "" then readFormLoop ps { b with parts := b.parts - 1 }
    else
      let mem1 := b.mem - p.name.utf8ByteSize - 200
      if mem1 < 0 then none
      else if p.filename = "" then
        if mem1 < p.data.length then none
        else readFormLoop ps { b with mem := mem1 - p.data.length, parts := b.parts - 1 }
      else
        let mem2 := mem1 - mimeHeaderSize p.header - 300
        if mem2 < 0 then none
        else
          let fh : FileHeader := ⟨base p.filename, p.header, p.data⟩
          let b2 : Budget :=
            if b.fileMem < p.data.length then
              ⟨mem2, b.fileMem, b.parts - 1, b.lines - headerLines p.header⟩
            else
              ⟨mem2 - p.data.length, b.fileMem - p.data.length, b.parts - 1,
                b.lines - headerLines p.header⟩
          (readFormLoop ps b2).map (fun fs => (p.name, fh) :: fs)

/-- The budgets with which `ReadForm` starts: `maxMemory` plus 10 MiB in all,
`maxMemory` for file content, 1000 parts and 10000 header lines. -/
def formBudget (maxMemory : Nat) : Budget :=
  ⟨(maxMemory : Int) + 10 * 2 ^ 20, maxMemory, 1000, 10000⟩

/-- The call `r.ParseMultipartForm(maxMemory)`, as far as the files of the
form go: `none` is an error.  Up to `maxMemory` bytes of file content are kept
in memory; `maxMemory` plus 10 MiB bounds what is kept in memory altogether;
a form has at most 1000 parts and 10000 header lines.  Temporary files live
outside the working directory and are not modelled. -/
def parseMultipartForm (r : Request) (maxMemory : Nat) : Option (List (String × FileHeader)) :=
  match r.form with
  | none => none
  | some parts => readFormLoop parts (formBudget maxMemory)

/-- The call `r.FormFile(key)` on a parsed form: the first file of that form
name. -/
def formFile (files : List (String × FileHeader)) (key : String) : Option FileHeader :=
  (files.find? (fun kf => kf.1 = key)).map (fun kf => kf.2)

/-- Splitting at every character that satisfies `sep`. -/
def splitOn (sep : Char → Bool) : List Char → List (List Char)
  | [] => [[]]
  | c :: cs =>
    match splitOn sep cs with
    | [] => [[]]
    | w :: ws => if sep c then [] :: w :: ws else (c :: w) :: ws

/-- The components of a cleaned path, last first: empty and `.` components
are dropped, `..` removes the component before it, and stays when there is
none to remove and the path is not rooted. -/
def cleanComps (rooted : Bool) : List (List Char) → List (List Char) → List (List Char)
  | acc, [] => acc
  | acc, c :: cs =>
    if c = [] ∨ c = ['.'] then cleanComps rooted acc cs
    else if c = ['.', '.'] then
      match acc with
      | [] => if rooted then cleanComps rooted [] cs else cleanComps rooted [c] cs
      | a :: as =>
        if a = ['.', '.'] then cleanComps rooted (c :: a :: as) cs
        else cleanComps rooted as cs
    else cleanComps rooted (c :: acc) cs

/-- The function `filepath.Clean` on a slash-separated path. -/
def clean (path : String) : String :=
  let rooted := path.data.head? = some '/'
  let comps := (cleanComps rooted [] (splitOn (fun c => c = '/') path.data)).reverse
  let body := String.mk (List.intercalate ['/'] comps)
  if rooted then "/" ++ body else if comps = [] then "." else body

/-- The call `filepath.Join(dir, name)`: empty elements are ignored and the
result is cleaned. -/
def join (dir name : String) : String :=
  if dir = "" ∧ name = "" then ""
  else if dir = "" then clean name
  else if name = "" then clean dir
  else clean (dir ++ "/" ++ name)

/-- The function `uploadFileHandler` of `main.go`; `now` is what
`time.Now().Unix()` returns. -/
def uploadFileHandler (now : Int) (fs : FS) (w : ResponseWriter) (r : Request) :
    FS × ResponseWriter :=
  let w := enableCORS w
  if r.method = "OPTIONS" then (fs, w.writeHeader 200)
  else if r.method ≠ "POST" then (fs, httpError w "Method not allowed" 405)
  else
    match parseMultipartForm r (10 * 2 ^ 20) with
    | none => (fs, httpError w "File too large" 413)
    | some files =>
      match formFile files "file" with
      | none => (fs, httpError w "Error retrieving file" 400)
      | some header =>
        match osMkdirAll fs "uploads" with
        | (fs1, Except.error _) => (fs1, httpError w "Error creating upload directory" 500)
        | (fs1, Except.ok _) =>
          let filename := toString now ++ "_" ++ header.Filename
          let filepath := join "uploads" filename
          match osCreate fs1 filepath with
          | (fs2, Except.error _) => (fs2, httpError w "Error creating file" 500)
          | (fs2, Except.ok _) =>
            let fs3 := osWrite fs2 filepath (Content.raw header.content)
            let response : File :=
              ⟨"", headerGet header.Header "Content-Type", "/uploads/" ++ filename⟩
            (fs3, encodeTo (w.setHeader "Content-Type" "application/json")
              (marshalFile response))

/-- A multipart message with the boundary `b` and no preamble, byte by byte:
for every part the delimiter line, the header lines, an empty line and the
data. -/
def multipartBody (parts : List Part) : List Nat :=
  parts.flatMap (fun p =>
    utf8Bytes "--b\r\n" ++
    p.header.flatMap (fun kv => kv.2.flatMap (fun v => utf8Bytes (kv.1 ++ ": " ++ v ++ "\r\n"))) ++
    utf8Bytes "\r\n" ++ p.data ++ utf8Bytes "\r\n") ++ utf8Bytes "--b--\r\n"

/-- The MIME header of a file part with form name `file`: its
`Content-Disposition` with the declared file name, and its `Content-Type`. -/
def filePartHeader (declared contentType : String) : List (String × List String) :=
  [("Content-Disposition", ["form-data; name=\"file\"; filename=\"" ++ declared ++ "\""]),
    ("Content-Type", [contentType])]

/-- A file part with form name `file`, the given declared name and content
type, and the given bytes. -/
def filePart (declared contentType : String) (data : List Nat) : Part :=
  ⟨"file", declared, filePartHeader declared contentType, data⟩

/-- A POST to `/api/upload` whose body is the multipart message of the
parts. -/
def uploadRequest (parts : List Part) : Request :=
  ⟨"POST", "/api/upload", Content.raw (multipartBody parts), some parts⟩

/-- A GET of a path, with an empty body. -/
def getRequest (path : String) : Request := ⟨"GET", path, Content.raw [], none⟩

/-! ## Lemmas on the time layer -/

theorem isDigit_digitChar (n : Nat) (h : n < 10) : isDigit (digitChar n) = true := by
  interval_cases n <;> rfl

theorem digitVal_digitChar (n : Nat) (h : n < 10) : digitVal (digitChar n) = n := by
  interval_cases n <;> rfl

theorem getnum_two (n : Nat) (rest : List Char) (fixed : Bool) (h : n < 100) :
    getnum (two n ++ rest) fixed = some (n, rest) := by
  have h1 : n / 10 < 10 := by omega
  have h2 : n % 10 < 10 := by omega
  simp only [two, List.cons_append, List.nil_append, getnum, isDigit_digitChar _ h1,
    isDigit_digitChar _ h2, digitVal_digitChar _ h1, digitVal_digitChar _ h2, if_true]
  congr 2
  omega

theorem getYear_four (n : Nat) (rest : List Char) (h : n < 10000) :
    getYear (four n ++ rest) = some (n, rest) := by
  have h1 : n / 1000 < 10 := by omega
  have h2 : n / 100 % 10 < 10 := by omega
  have h3 : n / 10 % 10 < 10 := by omega
  have h4 : n % 10 < 10 := by omega
  simp only [four, List.cons_append, List.nil_append, getYear, isDigit_digitChar _ h1,
    isDigit_digitChar _ h2, isDigit_digitChar _ h3, isDigit_digitChar _ h4,
    digitVal_digitChar _ h1, digitVal_digitChar _ h2, digitVal_digitChar _ h3,
    digitVal_digitChar _ h4, Bool.and_self, if_true]
  congr 2
  omega

theorem getRanged_two (n lo hi : Nat) (rest : List Char) (fixed : Bool) (h : n < 100)
    (hlo : lo ≤ n) (hhi : n < hi) : getRanged (two n ++ rest) fixed lo hi = some (n, rest) := by
  have hn : ¬(n < lo ∨ hi ≤ n) := by omega
  simp only [getRanged, getnum_two n rest fixed h, hn, if_false]

theorem daysIn_eq_monthLength (year month : Nat) (h1 : 1 ≤ month) (h2 : month ≤ 12) :
    daysIn month year = monthLength year month := by
  interval_cases month <;> simp [daysIn, monthLength, isLeap]
  by_cases h4 : year % 4 = 0 <;> by_cases h100 : year % 100 = 0 <;>
    by_cases h400 : year % 400 = 0 <;> simp [h4, h100, h400] <;> omega

theorem dropWhile_digits (l : List Char) (z : Char) (zr : List Char)
    (hl : ∀ c ∈ l, isDigit c = true) (hz : isDigit z = false) :
    (l ++ z :: zr).dropWhile isDigit = z :: zr := by
  induction l with
  | nil => simp [List.dropWhile, hz]
  | cons c cs ih =>
    have hc : isDigit c = true := hl c (List.mem_cons_self _ _)
    simp only [List.cons_append, List.dropWhile, hc]
    exact ih (fun x hx => hl x (List.mem_cons_of_mem _ hx))

theorem zoneText_head (s : Stamp) :
    ∃ z zr, s.zoneText = z :: zr ∧ isDigit z = false ∧ z ≠ '.' ∧ z ≠ ',' := by
  unfold Stamp.zoneText
  cases s.zone with
  | none => exact ⟨'Z', [], rfl, by decide, by decide, by decide⟩
  | some z =>
    obtain ⟨neg, h, m⟩ := z
    cases neg
    · exact ⟨'+', _, rfl, by decide, by decide, by decide⟩
    · exact ⟨'-', _, rfl, by decide, by decide, by decide⟩

theorem skipFraction_text (s : Stamp) (hf : ∀ d ∈ s.frac, d ≤ 9) :
    (skipFraction (s.fracText ++ s.zoneText)).2 = s.zoneText := by
  obtain ⟨z, zr, hz, hd, hp, hc⟩ := zoneText_head s
  rw [hz]
  unfold Stamp.fracText
  cases hfr : s.frac with
  | nil =>
    simp only [if_true, List.nil_append]
    cases zr with
    | nil => rfl
    | cons y ys => simp [skipFraction, hp, hc]
  | cons d ds =>
    have hd0 : isDigit (digitChar d) = true :=
      isDigit_digitChar d (by have := hf d (by simp [hfr]); omega)
    have hall : ∀ c ∈ (digitChar d :: ds.map digitChar), isDigit c = true := by
      intro c hc
      simp only [List.mem_cons, List.mem_map] at hc
      rcases hc with rfl | ⟨x, hx, rfl⟩
      · exact hd0
      · exact isDigit_digitChar x (by have := hf x (by simp [hfr, hx]); omega)
    have hsep : ((if s.comma = true then ',' else '.') = '.' ∨
        (if s.comma = true then ',' else '.') = ',') := by
      cases s.comma <;> simp
    simp only [reduceCtorEq, if_false, List.map_cons, List.cons_append, skipFraction, hsep, hd0,
      and_self, if_true]
    exact dropWhile_digits (digitChar d :: ds.map digitChar) z zr hall hd

theorem getZone_text (s : Stamp) (hz : zoneValid s.zone = true) :
    ∃ off, getZone s.zoneText = some (off, []) := by
  unfold Stamp.zoneText
  cases hzn : s.zone with
  | none => exact ⟨none, by simp [getZone]⟩
  | some z =>
    obtain ⟨neg, h, m⟩ := z
    rw [hzn] at hz
    simp only [zoneValid, Bool.and_eq_true, decide_eq_true_eq] at hz
    have e1 : getnum [digitChar (h / 10), digitChar (h % 10)] true = some (h, []) := by
      have := getnum_two h [] true (by omega)
      simpa [two] using this
    have e2 : getnum [digitChar (m / 10), digitChar (m % 10)] true = some (m, []) := by
      have := getnum_two m [] true (by omega)
      simpa [two] using this
    have hr : ¬(24 < h ∨ 60 < m) := by omega
    have ep : ('+' : Char) ≠ 'Z' := by decide
    have em : ('-' : Char) ≠ 'Z' := by decide
    have emp : ('-' : Char) ≠ '+' := by decide
    cases neg
    · refine ⟨some (((h * 60 + m) * 60 : Nat) : Int), ?_⟩
      simp only [Bool.false_eq_true, if_false, two, List.cons_append, List.nil_append, getZone,
        e1, e2, hr, if_true, ep]
    · refine ⟨some (-(((h * 60 + m) * 60 : Nat) : Int)), ?_⟩
      simp only [if_true, two, List.cons_append, List.nil_append, getZone,
        e1, e2, hr, if_false, em, emp]

theorem parse_text (s : Stamp) (hv : s.valid) (hs : s.second ≤ 59) :
    ∃ nsec off, parseRFC3339 s.text.data =
      some ⟨s.year, s.month, s.day, s.hour, s.minute, s.second, nsec, off⟩ := by
  obtain ⟨hy, hm1, hm2, hd1, hd2, hh, hmi, -, hf, hz⟩ := hv
  obtain ⟨off, hoff⟩ := getZone_text s hz
  have hday : s.day ≤ 31 := by
    have : monthLength s.year s.month ≤ 31 := by
      unfold monthLength; split <;> try split
      all_goals omega
    omega
  refine ⟨(skipFraction (s.fracText ++ s.zoneText)).1, off, ?_⟩
  have hdi := daysIn_eq_monthLength s.year s.month hm1 hm2
  have hfin : ([] : List Char) = [] ∧ 1 ≤ s.day ∧ s.day ≤ daysIn s.month s.year :=
    ⟨rfl, hd1, by omega⟩
  have hsk : skipFraction (s.fracText ++ s.zoneText) =
      ((skipFraction (s.fracText ++ s.zoneText)).1, s.zoneText) :=
    Prod.ext rfl (skipFraction_text s hf)
  simp only [parseRFC3339, Stamp.text, getDate, getClock, bind, Option.bind,
    getYear_four s.year _ (by omega), expect, if_true,
    getRanged_two s.month 1 13 _ true (by omega) hm1 (by omega),
    getnum_two s.day _ true (by omega),
    getRanged_two s.hour 0 24 _ false (by omega) (by omega) (by omega),
    getRanged_two s.minute 0 60 _ true (by omega) (by omega) (by omega),
    getRanged_two s.second 0 60 _ true (by omega) (by omega) (by omega)]
  rw [hsk]
  simp only [hoff, hfin, and_self, if_true]

theorem digitVal_le (c : Char) (h : isDigit c = true) : digitVal c ≤ 9 := by
  simp only [isDigit, Bool.and_eq_true, decide_eq_true_eq] at h
  unfold digitVal
  omega

theorem expect_some (c : Char) (s r : List Char) (h : expect c s = some r) : s = c :: r := by
  cases s with
  | nil => simp [expect] at h
  | cons x xs =>
    simp only [expect] at h
    split at h
    · rename_i hx
      simp only [Option.some.injEq] at h
      rw [hx, h]
    · exact absurd h (by simp)

theorem getYear_some (s r : List Char) (n : Nat) (h : getYear s = some (n, r)) :
    ∃ a b c d, s = a :: b :: c :: d :: r ∧ n < 10000 := by
  match s, h with
  | a :: b :: c :: d :: rest, h =>
    simp only [getYear] at h
    split at h
    · rename_i hd
      simp only [Bool.and_eq_true] at hd
      simp only [Option.some.injEq, Prod.mk.injEq] at h
      have := digitVal_le a hd.1.1.1
      have := digitVal_le b hd.1.1.2
      have := digitVal_le c hd.1.2
      have := digitVal_le d hd.2
      exact ⟨a, b, c, d, by rw [h.2], by omega⟩
    · exact absurd h (by simp)
  | [], h => simp [getYear] at h
  | [_], h => simp [getYear] at h
  | [_, _], h => simp [getYear] at h
  | [_, _, _], h => simp [getYear] at h

theorem getnum_fixed_some (s r : List Char) (n : Nat) (h : getnum s true = some (n, r)) :
    ∃ a b, s = a :: b :: r ∧ n < 100 := by
  match s, h with
  | [], h => simp [getnum] at h
  | [c0], h => simp [getnum] at h
  | c0 :: c1 :: rest, h =>
    simp only [getnum, if_true] at h
    by_cases h0 : isDigit c0 = true
    · by_cases h1 : isDigit c1 = true
      · simp only [h0, h1, if_true, Option.some.injEq, Prod.mk.injEq] at h
        have := digitVal_le c0 h0
        have := digitVal_le c1 h1
        exact ⟨c0, c1, by rw [h.2], by omega⟩
      · simp [h0, h1] at h
    · simp [h0] at h

theorem getRanged_some (s r : List Char) (fixed : Bool) (lo hi n : Nat)
    (h : getRanged s fixed lo hi = some (n, r)) : getnum s fixed = some (n, r) ∧ n < hi := by
  unfold getRanged at h
  cases hg : getnum s fixed with
  | none => simp [hg] at h
  | some p =>
    obtain ⟨m, rest⟩ := p
    simp only [hg] at h
    split at h
    · exact absurd h (by simp)
    · rename_i hn
      simp only [Option.some.injEq, Prod.mk.injEq] at h
      obtain ⟨rfl, rfl⟩ := h
      exact ⟨rfl, by omega⟩

theorem getDate_some (s r : List Char) (y m d : Nat) (h : getDate s = some ((y, m, d), r)) :
    ∃ a b c e m1 m2 d1 d2, s = a :: b :: c :: e :: '-' :: m1 :: m2 :: '-' :: d1 :: d2 :: r ∧
      y < 10000 ∧ m < 100 ∧ d < 100 := by
  simp only [getDate, bind, Option.bind_eq_some, Prod.exists, Option.some.injEq,
    Prod.mk.injEq] at h
  obtain ⟨y0, v1, hy, v2, he1, m0, v3, hm, v4, he2, d0, v5, hd, ⟨rfl, rfl, rfl⟩, rfl⟩ := h
  obtain ⟨a, b, c, e, rfl, hy4⟩ := getYear_some _ _ _ hy
  have := expect_some _ _ _ he1
  subst this
  obtain ⟨m1, m2, rfl, hm2⟩ := getnum_fixed_some _ _ _ (getRanged_some _ _ _ _ _ _ hm).1
  have := expect_some _ _ _ he2
  subst this
  obtain ⟨d1, d2, rfl, hd2⟩ := getnum_fixed_some _ _ _ hd
  exact ⟨a, b, c, e, m1, m2, d1, d2, rfl, hy4, hm2, hd2⟩

theorem parse_some (v : List Char) (t : Time) (h : parseRFC3339 v = some t) :
    v.get? 10 = some 'T' ∧ t.year < 10000 ∧ t.month < 100 ∧ t.day < 100 ∧ t.hour < 100 ∧
      t.minute < 100 := by
  simp only [parseRFC3339, bind, Option.bind_eq_some, Prod.exists] at h
  obtain ⟨y, m, d, v1, hdate, v2, hT, hr, mi, sec, ns, v3, hclock, z, v4, hz, hfin⟩ := h
  obtain ⟨a, b, c, e, m1, m2, d1, d2, rfl, hy, hm, hd⟩ := getDate_some _ _ _ _ _ hdate
  have := expect_some _ _ _ hT
  subst this
  simp only [getClock, bind, Option.bind_eq_some, Prod.exists, Option.some.injEq,
    Prod.mk.injEq] at hclock
  obtain ⟨h0, w1, hh, w2, -, mi0, w3, hmi, w4, -, s0, w5, -, ⟨rfl, rfl, rfl, rfl⟩, rfl⟩ := hclock
  have hh2 := (getRanged_some _ _ _ _ _ _ hh).2
  have hmi2 := (getRanged_some _ _ _ _ _ _ hmi).2
  split at hfin
  · simp only [Option.some.injEq] at hfin
    subst hfin
    exact ⟨rfl, hy, hm, hd, by show h0 < 100; omega, by show mi0 < 100; omega⟩
  · exact absurd hfin (by simp)

theorem formatDisplay_eq (t : Time) (hy : t.year < 10000) (hm : t.month < 100)
    (hd : t.day < 100) (hh : t.hour < 100) (hmi : t.minute < 100) :
    formatDisplay t = four t.year ++ '-' :: (two t.month ++ '-' :: (two t.day ++ ' ' ::
      (two t.hour ++ ':' :: two t.minute))) := by
  simp [formatDisplay, appendInt, four, two, hy, hm, hd, hh, hmi]

theorem parse_none_of_space (v : List Char) (h : v.get? 10 = some ' ') :
    parseRFC3339 v = none := by
  cases hp : parseRFC3339 v with
  | none => rfl
  | some t =>
    have := (parse_some v t hp).1
    rw [h] at this
    exact absurd this (by decide)

theorem parse_formatDisplay (v : List Char) (t : Time) (h : parseRFC3339 v = some t) :
    parseRFC3339 (formatDisplay t) = none := by
  obtain ⟨-, hy, hm, hd, hh, hmi⟩ := parse_some v t h
  apply parse_none_of_space
  rw [formatDisplay_eq t hy hm hd hh hmi]
  rfl

theorem parse_displayForm (u : String) (h : isDisplayForm u = true) :
    parseRFC3339 u.data = none := by
  apply parse_none_of_space
  unfold isDisplayForm at h
  split at h
  · rename_i heq
    simp only [Bool.and_eq_true, decide_eq_true_eq] at h
    rw [heq, h.1.2]
    rfl
  · exact absurd h (by simp)

theorem formatDateTime_displayForm (u : String) (h : isDisplayForm u = true) :
    formatDateTime u = u := by
  simp only [formatDateTime, parse_displayForm u h]

theorem formatDateTime_twice (t : String) :
    formatDateTime (formatDateTime t) = formatDateTime t := by
  cases hp : parseRFC3339 t.data with
  | none =>
    have h1 : formatDateTime t = t := by simp only [formatDateTime, hp]
    rw [h1, h1]
  | some tm =>
    have h1 : formatDateTime t = String.mk (formatDisplay tm) := by
      simp only [formatDateTime, hp]
    rw [h1]
    simp only [formatDateTime, parse_formatDisplay t.data tm hp]

/-! ## The claims on `formatDateTime` -/

/-- C1 (as amended): for every valid timestamp of the complete extended form
whose seconds are 00 to 59, `formatDateTime` returns the display string
`YYYY-MM-DD HH:MM` with the year, month, day, hour and minute written in the
timestamp: it is in display form, and it is the first ten characters of the
input, a space, and the five characters after the `T`. -/
theorem formatDateTime_valid_stamp (s : Stamp) (hv : s.valid) (hs : s.second ≤ 59) :
    formatDateTime s.text = s.display ∧ isDisplayForm (formatDateTime s.text) = true ∧
      (formatDateTime s.text).data =
        s.text.data.take 10 ++ ' ' :: (s.text.data.drop 11).take 5 := by
  obtain ⟨nsec, off, hp⟩ := parse_text s hv hs
  obtain ⟨hy, hm1, hm2, hd1, hd2, hh, hmi, -, hf, hz⟩ := hv
  have hday : s.day ≤ 31 := by
    have : monthLength s.year s.month ≤ 31 := by
      unfold monthLength; split <;> try split
      all_goals omega
    omega
  have hfd : formatDateTime s.text = s.display := by
    simp only [formatDateTime, hp, Stamp.display]
    rw [formatDisplay_eq _ (by simp; omega) (by simp; omega) (by simp; omega) (by simp; omega)
      (by simp; omega)]
  refine ⟨hfd, ?_, ?_⟩
  · rw [hfd]
    simp only [isDisplayForm, Stamp.display, four, two, List.cons_append, List.nil_append,
      isDigit_digitChar _ (show s.year / 1000 < 10 by omega),
      isDigit_digitChar _ (show s.year / 100 % 10 < 10 by omega),
      isDigit_digitChar _ (show s.year / 10 % 10 < 10 by omega),
      isDigit_digitChar _ (show s.year % 10 < 10 by omega),
      isDigit_digitChar _ (show s.month / 10 < 10 by omega),
      isDigit_digitChar _ (show s.month % 10 < 10 by omega),
      isDigit_digitChar _ (show s.day / 10 < 10 by omega),
      isDigit_digitChar _ (show s.day % 10 < 10 by omega),
      isDigit_digitChar _ (show s.hour / 10 < 10 by omega),
      isDigit_digitChar _ (show s.hour % 10 < 10 by omega),
      isDigit_digitChar _ (show s.minute / 10 < 10 by omega),
      isDigit_digitChar _ (show s.minute % 10 < 10 by omega), decide_True, Bool.and_self]
  · rw [hfd]
    simp [Stamp.display, Stamp.text, four, two]

/-- Witness of C1 (as amended) at `2025-09-09T14:50:00Z`. -/
theorem formatDateTime_valid_stamp_witness :
    (Stamp.mk 2025 9 9 14 50 0 [] false none).text = "2025-09-09T14:50:00Z" ∧
      formatDateTime "2025-09-09T14:50:00Z" = "2025-09-09 14:50" :=
  ⟨by decide, (formatDateTime_valid_stamp ⟨2025, 9, 9, 14, 50, 0, [], false, none⟩
    (by decide) (by decide)).1⟩

/-- C1 fails as stated: `2016-12-31T23:59:60Z`, the leap second at the end of
2016, is a valid timestamp, yet `formatDateTime` returns it unchanged, which
is not in display form. -/
theorem formatDateTime_leap_second :
    (Stamp.mk 2016 12 31 23 59 60 [] false none).valid ∧
      (Stamp.mk 2016 12 31 23 59 60 [] false none).text = "2016-12-31T23:59:60Z" ∧
      formatDateTime "2016-12-31T23:59:60Z" = "2016-12-31T23:59:60Z" ∧
      isDisplayForm (formatDateTime "2016-12-31T23:59:60Z") = false := by
  decide

/-- C2: `formatDateTime` is idempotent on every string, parseable or not: a
second pass returns what the first pass returned. -/
theorem formatDateTime_idempotent (t : String) :
    formatDateTime (formatDateTime t) = formatDateTime t :=
  formatDateTime_twice t

/-! ## Lemmas on the JSON layer and the store -/

theorem decodeFile_marshalFile (f : File) : decodeFile File.zero (marshalFile f) = some f := by
  obtain ⟨n, t, u⟩ := f
  have h1 : findField ["name", "type", "url"] "name" = some "name" := by decide
  have h2 : findField ["name", "type", "url"] "type" = some "type" := by decide
  have h3 : findField ["name", "type", "url"] "url" = some "url" := by decide
  have d1 : ("type" : String) ≠ "name" := by decide
  have d2 : ("url" : String) ≠ "name" := by decide
  have d3 : ("url" : String) ≠ "type" := by decide
  by_cases hn : n = ""
  · subst hn
    simp [marshalFile, decodeFile, List.foldlM, decodeFileMember, h2, h3, d1, d2, d3,
      decodeString, File.zero]
  · simp [marshalFile, decodeFile, List.foldlM, decodeFileMember, h1, h2, h3, d1, d2, d3,
      decodeString, File.zero, hn]

theorem decodeArrayInto_marshal (fs : List File) :
    decodeArrayInto [] (fs.map marshalFile) = some (fs, []) := by
  induction fs with
  | nil => rfl
  | cons f rest ih => simp [decodeArrayInto, decodeFile_marshalFile, ih]

theorem decodeFiles_marshalFiles (x : Option (List File)) :
    decodeFiles ⟨none, []⟩ (marshalFiles x) = some ⟨x, []⟩ := by
  cases x with
  | none => rfl
  | some fs =>
    cases fs with
    | nil => rfl
    | cons f rest =>
      have := decodeArrayInto_marshal (f :: rest)
      simp only [List.map_cons] at this
      simp [marshalFiles, decodeFiles, this]

theorem unmarshal_marshal (h : Homework) : unmarshalHomework (marshalHomework h) = some h := by
  obtain ⟨t, fl, u⟩ := h
  have h1 : findField ["text", "files", "updated_at"] "text" = some "text" := by decide
  have h2 : findField ["text", "files", "updated_at"] "files" = some "files" := by decide
  have h3 : findField ["text", "files", "updated_at"] "updated_at" = some "updated_at" := by
    decide
  have d1 : ("files" : String) ≠ "text" := by decide
  have d2 : ("updated_at" : String) ≠ "text" := by decide
  have d3 : ("updated_at" : String) ≠ "files" := by decide
  simp [unmarshalHomework, marshalHomework, decodeRecord, List.foldlM, decodeRecordMember,
    h1, h2, h3, d1, d2, d3, decodeString, decodeFiles_marshalFiles]

theorem FS.set_same (fs : FS) (path : String) (n : Node) : fs.set path n path = some n := by
  simp [FS.set]

theorem saveHomework_ok (fs fs1 : FS) (f : String) (r : Homework)
    (hs : saveHomework fs f r = (fs1, none)) :
    fs1 f = some (Node.file (Content.json (marshalHomework r))) := by
  unfold saveHomework at hs
  split at hs
  · simp at hs
  · simp only [Prod.mk.injEq, and_true] at hs
    rw [← hs]
    exact FS.set_same _ _ _

theorem loadHomework_stored (fs : FS) (f : String) (r : Homework)
    (hf : fs f = some (Node.file (Content.json (marshalHomework r)))) :
    loadHomework fs f = (fs, Except.ok { r with UpdatedAt := formatDateTime r.UpdatedAt }) := by
  simp [loadHomework, osOpen, hf, decodeHomework, Content.value, unmarshal_marshal]

/-! ## The claims on the record store -/

/-- C3: when `saveHomework` succeeds on a record whose `UpdatedAt` is in
display form, `loadHomework` of the same file returns that record, without
error. -/
theorem save_load_roundtrip (fs fs1 : FS) (f : String) (r : Homework)
    (hd : isDisplayForm r.UpdatedAt = true) (hs : saveHomework fs f r = (fs1, none)) :
    (loadHomework fs1 f).2 = Except.ok r := by
  rw [loadHomework_stored fs1 f r (saveHomework_ok fs fs1 f r hs),
    formatDateTime_displayForm _ hd]

/-- Witness of C3: a record with an attachment saved into an empty file
system. -/
theorem save_load_roundtrip_witness :
    isDisplayForm "2025-09-09 14:50" = true ∧
      (loadHomework (saveHomework FS.empty "math.json"
        ⟨"ch1", some [⟨"", "application/pdf", "/uploads/1_notes.pdf"⟩],
          "2025-09-09 14:50"⟩).1 "math.json").2 =
      Except.ok ⟨"ch1", some [⟨"", "application/pdf", "/uploads/1_notes.pdf"⟩],
        "2025-09-09 14:50"⟩ :=
  ⟨by decide, save_load_roundtrip FS.empty _ "math.json" _ (by decide) rfl⟩

/-- C9: for a file name that does not exist, `loadHomework` returns the zero
record without error and leaves the file system as it was. -/
theorem loadHomework_missing (fs : FS) (f : String) (h : fs f = none) :
    (loadHomework fs f).2 = Except.ok Homework.zero ∧ (loadHomework fs f).1 = fs ∧
      Homework.zero.Text = "" ∧ Homework.zero.Files = none ∧ Homework.zero.UpdatedAt = "" := by
  simp [loadHomework, osOpen, h, Homework.zero]

/-- Witness of C9 on the empty file system. -/
theorem loadHomework_missing_witness :
    (loadHomework FS.empty "unused.json").2 = Except.ok Homework.zero ∧
      (loadHomework FS.empty "unused.json").1 "unused.json" = none :=
  ⟨(loadHomework_missing FS.empty "unused.json" rfl).1,
    by rw [(loadHomework_missing FS.empty "unused.json" rfl).2.1]; rfl⟩

/-! ## The claims on the subject endpoints -/

set_option maxRecDepth 8000 in
/-- C5 fails on the code: a POST whose attachment carries the name
`secret.pdf` stores that name, and the GET that follows returns the
attachment with the key `name` next to `type` and `url`. -/
theorem name_key_serialized :
    (subjectHandler "math"
      (subjectHandler "math" FS.empty ResponseWriter.new
        ⟨"POST", "/api/homework/math", Content.raw (utf8Bytes
          "\x7b\"text\":\"hw\",\"files\":[\x7b\"name\":\"secret.pdf\",\"type\":\"application/pdf\",\"url\":\"/uploads/1_secret.pdf\"\x7d],\"updated_at\":\"\"\x7d"),
          none⟩).1
      ResponseWriter.new (getRequest "/api/homework/math")).2.body
      = Body.data (Content.json (JValue.obj [("text", JValue.str "hw"),
          ("files", JValue.arr [JValue.obj [("name", JValue.str "secret.pdf"),
            ("type", JValue.str "application/pdf"),
            ("url", JValue.str "/uploads/1_secret.pdf")]]),
          ("updated_at", JValue.str "")])) := by
  rfl

/-- C6 fails on the code: a DELETE to the subject endpoint `math` is answered
with status 405 by the default branch of the route handler, which does not
call `enableCORS`; the response has none of the CORS headers. -/
theorem delete_without_cors :
    (subjectHandler "math" FS.empty ResponseWriter.new
      ⟨"DELETE", "/api/homework/math", Content.raw [], none⟩).2.code = 405 ∧
    (subjectHandler "math" FS.empty ResponseWriter.new
      ⟨"DELETE", "/api/homework/math", Content.raw [], none⟩).2.getHeader
        "Access-Control-Allow-Origin" = none ∧
    hasCORS (subjectHandler "math" FS.empty ResponseWriter.new
      ⟨"DELETE", "/api/homework/math", Content.raw [], none⟩).2 = false := by
  decide

/-! ## The claims on uploads -/

theorem readFormLoop_filePart (declared contentType : String) (data : List Nat) (b : Budget)
    (hmem : (mimeHeaderSize (filePartHeader declared contentType) : Int) + 504 +
      mimeHeaderSize (filePartHeader declared contentType) ≤ b.mem)
    (hlines : 2 ≤ b.lines) (hparts : 0 < b.parts) (hd : declared ≠ "") :
    readFormLoop [filePart declared contentType data] b =
      some [("file", ⟨base declared, filePartHeader declared contentType, data⟩)] := by
  have hl : headerLines (filePartHeader declared contentType) = 2 := rfl
  have hn : (filePart declared contentType data).name = "file" := rfl
  have hf : (filePart declared contentType data).filename = declared := rfl
  have hdt : (filePart declared contentType data).data = data := rfl
  have hh : (filePart declared contentType data).header = filePartHeader declared contentType :=
    rfl
  have hsz : ("file" : String).utf8ByteSize = 4 := by decide
  have hne : ("file" : String) ≠ "" := by decide
  have h1 : ¬(b.mem < (mimeHeaderSize (filePartHeader declared contentType) : Int) ∨
      b.lines < ((2 : Nat) : Int)) := by
    push_cast
    omega
  have h2 : ¬(b.parts = 0) := by omega
  have h3 : ¬(b.mem - ((4 : Nat) : Int) - 200 < 0) := by
    push_cast
    omega
  have h4 : ¬(b.mem - ((4 : Nat) : Int) - 200 -
      (mimeHeaderSize (filePartHeader declared contentType) : Int) - 300 < 0) := by
    push_cast
    omega
  simp only [readFormLoop, hh, hl, hn, hf, hdt, hsz, hne, hd, h1, h2, h3, h4, if_false,
    Option.map_some']

theorem upload_single_part (declared contentType : String) (data : List Nat)
    (hd : declared ≠ "")
    (hsize : mimeHeaderSize (filePartHeader declared contentType) ≤ 2 ^ 20) :
    parseMultipartForm (uploadRequest [filePart declared contentType data]) (10 * 2 ^ 20) =
      some [("file", ⟨base declared, filePartHeader declared contentType, data⟩)] := by
  unfold parseMultipartForm uploadRequest
  simp only
  apply readFormLoop_filePart _ _ _ _ _ (by decide) (by decide) hd
  simp only [formBudget]
  push_cast
  have : ((2 : Int) ^ 20) = 1048576 := by norm_num
  have h2 : (mimeHeaderSize (filePartHeader declared contentType) : Int) ≤ 2 ^ 20 := by
    exact_mod_cast hsize
  omega

theorem upload_big (d : List Nat) :
    uploadFileHandler 0 FS.empty ResponseWriter.new
      (uploadRequest [filePart "big.bin" "application/octet-stream" d]) =
      (((FS.set FS.empty "uploads" Node.dir).set "uploads/0_big.bin"
          (Node.file (Content.raw []))).set "uploads/0_big.bin" (Node.file (Content.raw d)),
        encodeTo ((enableCORS ResponseWriter.new).setHeader "Content-Type" "application/json")
          (marshalFile ⟨"", "application/octet-stream", "/uploads/0_big.bin"⟩)) := by
  have hp := upload_single_part "big.bin" "application/octet-stream" d (by decide) (by decide)
  unfold uploadFileHandler
  simp only [hp]
  rfl

/-- C7 fails on the code: a POST to `/api/upload` whose file part has
10 MiB + 1 bytes is answered with status 200, not 413, and the file is
written into the upload directory. -/
theorem oversize_upload_accepted :
    10 * 2 ^ 20 < (List.replicate (10 * 2 ^ 20 + 1) 0).length ∧
    (uploadFileHandler 0 FS.empty ResponseWriter.new
      (uploadRequest [filePart "big.bin" "application/octet-stream"
        (List.replicate (10 * 2 ^ 20 + 1) 0)])).2.code = 200 ∧
    (uploadFileHandler 0 FS.empty ResponseWriter.new
      (uploadRequest [filePart "big.bin" "application/octet-stream"
        (List.replicate (10 * 2 ^ 20 + 1) 0)])).1 "uploads/0_big.bin" =
      some (Node.file (Content.raw (List.replicate (10 * 2 ^ 20 + 1) 0))) := by
  rw [upload_big]
  refine ⟨?_, rfl, ?_⟩
  · rw [List.length_replicate]; omega
  · exact FS.set_same (FS.set (FS.set FS.empty "uploads" Node.dir) "uploads/0_big.bin"
      (Node.file (Content.raw []))) "uploads/0_big.bin" _

end Backend
